import Mathlib

/-!
Verification development for the RootCauseAI log-analysis orchestration core.

This file gives a shallow embedding, in Lean 4, of the components of the
repository that the specification's claims are about:

* `rootcauseai/cache.py` — `AnalysisCache` (content-addressed result cache
  with TTL expiry; the fingerprint is a SHA-256 hex digest of whitespace
  normalized content, so the SHA-256 algorithm used by `hashlib.sha256`
  is embedded here as well, operating on the UTF-8 bytes of the input);
* `rootcauseai/analyzer.py` — `LogAnalyzer.analyze_logs_parallel`
  (cache consultation, chunk dispatch, failure isolation, reassembly),
  together with a small-step scheduler semantics of the
  semaphore-bounded concurrent dispatch loop (`analyze_with_semaphore`,
  `asyncio.gather`);
* `rootcauseai/rate_limit.py` — `RateLimitMiddleware._check_rate_limit`
  (three sliding windows with pruning and all-or-nothing admission);
* `rootcauseai/cost_tracker.py` — `CostTracker.record_usage`,
  `CostTracker.get_daily_cost` (per-model pricing with a default
  fallback, daily cost/request rollups).

Modelling conventions:

* Machine reals used for pricing in the Python source are modelled as
  exact rationals (`ℚ`); the Python literals involved (0.15/1_000_000
  etc.) and the sums appearing in the verified scenarios are exact in
  IEEE double precision, so the rational model agrees with the code on
  every value stated in a theorem below.
* Wall-clock instants (`time.time()`, `datetime.now()`) are passed
  explicitly as integer timestamps (seconds); `timedelta`/TTL values
  are integer second counts.
* The filesystem-backed cache directory is modelled as an association
  list from cache key (the hex fingerprint) to stored entry; a corrupt
  or unreadable cache file is the `StoredEntry.corrupt` constructor,
  and a failing cache write is the `writeOk := false` parameter — both
  stand for the exceptions caught by the `try/except` blocks in
  `cache.py`, which are made explicit as `Except` values in the
  `*Body` functions below.
* The external analysis service (`self.llm.invoke`, an out-of-scope
  collaborator per the specification) is a parameter `oracle`, giving
  for each chunk index and chunk text either a success value
  `(content, input_tokens, output_tokens)` or a raised error message;
  `analyze_chunk_async` wraps a raised error into an `LLMServiceError`
  whose message is `"Failed to analyze log chunk: " ++ e`.
* The external text splitter (`RecursiveCharacterTextSplitter`, also an
  out-of-scope collaborator) is a parameter `split : String → List String`.
* Log preprocessing (`log_preprocessor.py`, out of scope per the
  specification) is the identity here: the analyzer is modelled from
  line 142 of `analyzer.py` onward, i.e. on the (possibly already
  preprocessed) `log_text`; the constructor flag `preprocess_logs =
  False` realizes exactly this configuration in the source.
-/

set_option maxRecDepth 10000

namespace RootCauseAI

/-! ## SHA-256 (embedding of `hashlib.sha256(data).hexdigest()`)

Words are `Nat` reduced modulo `2 ^ 32`; the message is a list of bytes
(`Nat` values below 256) obtained by UTF-8 encoding the input string. -/

/-- Right rotation of a 32-bit word (exact on inputs below `2 ^ 32`). -/
def rotr32 (n x : Nat) : Nat :=
  x / 2 ^ n + x % 2 ^ n * 2 ^ (32 - n)

/-- Logical right shift of a 32-bit word. -/
def shr32 (n x : Nat) : Nat := x / 2 ^ n

/-- Bitwise complement on 32 bits. -/
def not32 (x : Nat) : Nat := Nat.xor x (2 ^ 32 - 1)

/-- SHA-256 Ch function. -/
def sha256Ch (x y z : Nat) : Nat := Nat.xor (Nat.land x y) (Nat.land (not32 x) z)

/-- SHA-256 Maj function. -/
def sha256Maj (x y z : Nat) : Nat :=
  Nat.xor (Nat.xor (Nat.land x y) (Nat.land x z)) (Nat.land y z)

/-- SHA-256 Σ0. -/
def bigSigma0 (x : Nat) : Nat := Nat.xor (Nat.xor (rotr32 2 x) (rotr32 13 x)) (rotr32 22 x)

/-- SHA-256 Σ1. -/
def bigSigma1 (x : Nat) : Nat := Nat.xor (Nat.xor (rotr32 6 x) (rotr32 11 x)) (rotr32 25 x)

/-- SHA-256 σ0. -/
def smallSigma0 (x : Nat) : Nat := Nat.xor (Nat.xor (rotr32 7 x) (rotr32 18 x)) (shr32 3 x)

/-- SHA-256 σ1. -/
def smallSigma1 (x : Nat) : Nat := Nat.xor (Nat.xor (rotr32 17 x) (rotr32 19 x)) (shr32 10 x)

/-- SHA-256 round constants (decimal; the fractional parts of the cube
roots of the first 64 primes, scaled to 32 bits). -/
def sha256K : List Nat :=
  [1116352408, 1899447441, 3049323471, 3921009573, 961987163,
   1508970993, 2453635748, 2870763221, 3624381080, 310598401,
   607225278, 1426881987, 1925078388, 2162078206, 2614888103,
   3248222580, 3835390401, 4022224774, 264347078, 604807628,
   770255983, 1249150122, 1555081692, 1996064986, 2554220882,
   2821834349, 2952996808, 3210313671, 3336571891, 3584528711,
   113926993, 338241895, 666307205, 773529912, 1294757372,
   1396182291, 1695183700, 1986661051, 2177026350, 2456956037,
   2730485921, 2820302411, 3259730800, 3345764771, 3516065817,
   3600352804, 4094571909, 275423344, 430227734, 506948616,
   659060556, 883997877, 958139571, 1322822218, 1537002063,
   1747873779, 1955562222, 2024104815, 2227730452, 2361852424,
   2428436474, 2756734187, 3204031479, 3329325298]

/-- The eight 32-bit working variables of the SHA-256 compression function. -/
structure Hash8 where
  a : Nat
  b : Nat
  c : Nat
  d : Nat
  e : Nat
  f : Nat
  g : Nat
  h : Nat
deriving DecidableEq, Repr

/-- SHA-256 initial hash value (decimal; the fractional parts of the
square roots of the first 8 primes, scaled to 32 bits). -/
def sha256H0 : Hash8 :=
  ⟨1779033703, 3144134277, 1013904242, 2773480762,
   1359893119, 2600822924, 528734635, 1541459225⟩

/-- One round of the SHA-256 compression function on constant `k` and
schedule word `w`. -/
def sha256Round (st : Hash8) (kw : Nat × Nat) : Hash8 :=
  let t1 := (st.h + bigSigma1 st.e + sha256Ch st.e st.f st.g + kw.1 + kw.2) % 2 ^ 32
  let t2 := (bigSigma0 st.a + sha256Maj st.a st.b st.c) % 2 ^ 32
  ⟨(t1 + t2) % 2 ^ 32, st.a, st.b, st.c, (st.d + t1) % 2 ^ 32, st.e, st.f, st.g⟩

/-- Append one word to the message schedule
(`W[i] = σ1 W[i-2] + W[i-7] + σ0 W[i-15] + W[i-16]`, at `i = w.length`). -/
def scheduleStep (w : List Nat) : List Nat :=
  w ++ [(smallSigma1 (w.getD (w.length - 2) 0) + w.getD (w.length - 7) 0 +
         smallSigma0 (w.getD (w.length - 15) 0) + w.getD (w.length - 16) 0) % 2 ^ 32]

/-- Extend the 16 block words to the 64-word message schedule. -/
def sha256Schedule (w16 : List Nat) : List Nat := scheduleStep^[48] w16

/-- Convert a 64-byte block to 16 big-endian 32-bit words. -/
def bytesToWords : List Nat → List Nat
  | b0 :: b1 :: b2 :: b3 :: rest =>
      (b0 * 2 ^ 24 + b1 * 2 ^ 16 + b2 * 2 ^ 8 + b3) :: bytesToWords rest
  | _ => []

/-- Process one 64-byte block. -/
def sha256Block (H : Hash8) (block : List Nat) : Hash8 :=
  let ws := sha256Schedule (bytesToWords block)
  let st := (sha256K.zip ws).foldl sha256Round H
  ⟨(H.a + st.a) % 2 ^ 32, (H.b + st.b) % 2 ^ 32, (H.c + st.c) % 2 ^ 32,
   (H.d + st.d) % 2 ^ 32, (H.e + st.e) % 2 ^ 32, (H.f + st.f) % 2 ^ 32,
   (H.g + st.g) % 2 ^ 32, (H.h + st.h) % 2 ^ 32⟩

/-- Big-endian 8-byte encoding of the message bit length. -/
def lengthBytes (n : Nat) : List Nat :=
  [n / 2 ^ 56 % 256, n / 2 ^ 48 % 256, n / 2 ^ 40 % 256, n / 2 ^ 32 % 256,
   n / 2 ^ 24 % 256, n / 2 ^ 16 % 256, n / 2 ^ 8 % 256, n % 256]

/-- SHA-256 padding: a 0x80 byte, zeros to 56 mod 64, then the 64-bit
big-endian bit length. -/
def padMessage (msg : List Nat) : List Nat :=
  let L := msg.length
  msg ++ [0x80] ++ List.replicate ((119 - L % 64) % 64) 0 ++ lengthBytes (8 * L)

/-- Split a byte sequence into 64-byte blocks. -/
def toBlocks (l : List Nat) : List (List Nat) :=
  if l = [] then []
  else l.take 64 :: toBlocks (l.drop 64)
termination_by l.length
decreasing_by
  have h1 : 0 < l.length := List.length_pos.mpr ‹l ≠ []›
  simp only [List.length_drop]
  omega

/-- UTF-8 encoding of one Unicode code point. -/
def utf8Bytes (c : Nat) : List Nat :=
  if c < 0x80 then [c]
  else if c < 0x800 then [0xC0 + c / 64, 0x80 + c % 64]
  else if c < 0x10000 then [0xE0 + c / 4096, 0x80 + c / 64 % 64, 0x80 + c % 64]
  else [0xF0 + c / 262144, 0x80 + c / 4096 % 64, 0x80 + c / 64 % 64, 0x80 + c % 64]

/-- UTF-8 bytes of a string (`str.encode("utf-8")`). -/
def strBytes (s : String) : List Nat := (s.data.map fun c => utf8Bytes c.toNat).flatten

/-- SHA-256 digest (as eight words) of a string's UTF-8 bytes. -/
def sha256Words (s : String) : Hash8 :=
  (toBlocks (padMessage (strBytes s))).foldl sha256Block sha256H0

/-- The four big-endian bytes of a 32-bit word. -/
def wordBytes (w : Nat) : List Nat :=
  [w / 2 ^ 24 % 256, w / 2 ^ 16 % 256, w / 2 ^ 8 % 256, w % 256]

/-- The lowercase hexadecimal digit for `n % 16`. -/
def hexDigit (n : Nat) : Char := "0123456789abcdef".data.getD (n % 16) '0'

/-- Two lowercase hex characters for one byte. -/
def byteToHex (b : Nat) : List Char := [hexDigit (b / 16), hexDigit b]

/-- The 32 digest bytes of a SHA-256 state. -/
def digestBytes (H : Hash8) : List Nat :=
  wordBytes H.a ++ wordBytes H.b ++ wordBytes H.c ++ wordBytes H.d ++
  wordBytes H.e ++ wordBytes H.f ++ wordBytes H.g ++ wordBytes H.h

/-- `hashlib.sha256(s.encode("utf-8")).hexdigest()`. -/
def sha256hex (s : String) : String :=
  String.mk ((digestBytes (sha256Words s)).map byteToHex).flatten

/-! ## Cache fingerprint (`AnalysisCache._get_cache_key`)

`normalized = "\n".join(line.strip() for line in log_content.strip().split("\n"))`
followed by `hashlib.sha256(normalized.encode("utf-8")).hexdigest()`.
`str.strip()` removes ASCII whitespace from both ends (the Unicode
whitespace code points beyond ASCII are not modelled; no document in
any theorem below contains them). -/

/-- The ASCII characters removed by Python `str.strip()`. -/
def isStripSpace (c : Char) : Bool :=
  c == ' ' || c == '\t' || c == '\n' || c == '\r' ||
  c == Char.ofNat 11 || c == Char.ofNat 12

/-- Python `str.strip()` on a character list. -/
def stripChars (l : List Char) : List Char :=
  ((l.dropWhile isStripSpace).reverse.dropWhile isStripSpace).reverse

/-- Python `str.split("\n")` on a character list:
`splitLines [] = [[]]` matches `"".split("\n") == [""]`. -/
def splitLines : List Char → List (List Char)
  | [] => [[]]
  | c :: cs =>
      if c = '\n' then [] :: splitLines cs
      else
        match splitLines cs with
        | [] => [[c]]
        | l :: ls => (c :: l) :: ls

/-- The whitespace normalization of `_get_cache_key`: strip the whole
content, split into lines, strip each line, rejoin with a newline. -/
def normalizeContent (s : String) : String :=
  String.mk (List.intercalate ['\n'] ((splitLines (stripChars s.data)).map stripChars))

/-- `AnalysisCache._get_cache_key`: SHA-256 hex digest of the
normalized content. -/
def get_cache_key (log_content : String) : String := sha256hex (normalizeContent log_content)

/-! ## Cache storage (`AnalysisCache.get` / `AnalysisCache.set`)

The cache directory holds at most one JSON file per fingerprint; it is
modelled as an association list from cache key to stored entry.
A `corrupt` entry stands for a cache file whose read or JSON parse
raises (the `except` branch of `get`); `erase` models
`cache_path.unlink()`; overwriting `insert` models opening the file
with mode `"w"`. -/

/-- One cache file: either a well-formed entry with its creation
timestamp and stored analysis, or an unreadable/corrupt file. -/
inductive StoredEntry where
  | valid : Int → String → StoredEntry
  | corrupt : StoredEntry
deriving DecidableEq, Repr

/-- The cache directory. -/
abbrev CacheStore := List (String × StoredEntry)

/-- Find the cache file for a key (`cache_path.exists()` plus read). -/
def lookupStore : CacheStore → String → Option StoredEntry
  | [], _ => none
  | (k, v) :: rest, key => if key == k then some v else lookupStore rest key

/-- Delete the cache file for a key (`cache_path.unlink()`). -/
def eraseStore (store : CacheStore) (key : String) : CacheStore :=
  store.filter fun kv => !(kv.1 == key)

/-- Write the cache file for a key, overwriting any previous one. -/
def insertStore : CacheStore → String → StoredEntry → CacheStore
  | [], key, v => [(key, v)]
  | (k0, v0) :: rest, key, v =>
      if key == k0 then (key, v) :: rest else (k0, v0) :: insertStore rest key v

/-- The body of the `try` block of `AnalysisCache.get`, for an existing
cache file: reading a corrupt file raises (an `Except.error`); a
well-formed entry is expired when `now - timestamp > ttl` (strict),
in which case the file is deleted and the entry treated as absent. -/
def cache_get_body (store : CacheStore) (ttl now : Int) (key : String) :
    StoredEntry → Except String (Option String × CacheStore)
  | .corrupt => .error "failed to read cache"
  | .valid ts analysis =>
      if now - ts > ttl then .ok (none, eraseStore store key)
      else .ok (some analysis, store)

/-- `AnalysisCache.get`: absent file gives `None`; the `try` body runs
otherwise, and any raised error is caught and converted to `None` with
the store untouched (fail-open). Returns the result together with the
cache directory state after the call. -/
def cache_get (store : CacheStore) (ttl now : Int) (log_content : String) :
    Option String × CacheStore :=
  let key := get_cache_key log_content
  match lookupStore store key with
  | none => (none, store)
  | some e =>
      match cache_get_body store ttl now key e with
      | .ok r => r
      | .error _ => (none, store)

/-- The body of the `try` block of `AnalysisCache.set`: the write
either succeeds (`writeOk = true`) or raises. -/
def cache_set_body (writeOk : Bool) (store : CacheStore) (now : Int)
    (key analysis : String) : Except String CacheStore :=
  if writeOk then .ok (insertStore store key (.valid now analysis))
  else .error "failed to write cache"

/-- `AnalysisCache.set`: computes the key, writes the entry with the
current timestamp; a raised storage error is caught and only logged,
leaving the store unchanged and returning normally. -/
def cache_set (writeOk : Bool) (store : CacheStore) (now : Int)
    (log_content analysis : String) : CacheStore :=
  match cache_set_body writeOk store now (get_cache_key log_content) analysis with
  | .ok s => s
  | .error _ => store

/-! ## Analyzer (`LogAnalyzer.analyze_logs_parallel`, from line 142)

The outcome of `analyze_chunk_async` for one chunk is either the tuple
`(analysis, input_tokens, output_tokens)` or the `LLMServiceError`
raised after wrapping the underlying service error. `asyncio.gather`
with `return_exceptions=True` collects one such outcome per chunk, in
task submission order. -/

/-- Outcome of one chunk task as observed by `asyncio.gather`:
either `(analysis, input_tokens, output_tokens)` or a raised
`LLMServiceError` carrying its message. -/
abbrev ChunkOutcome := Except String (String × Nat × Nat)

/-- `analyze_chunk_async` on the service outcome for one chunk:
a service success passes through (with its usage recorded by the
caller of this function); a raised service error `e` becomes an
`LLMServiceError` with message `"Failed to analyze log chunk: " + str(e)`. -/
def analyze_chunk (serviceResult : Except String (String × Nat × Nat)) : ChunkOutcome :=
  match serviceResult with
  | .ok r => .ok r
  | .error e => .error ("Failed to analyze log chunk: " ++ e)

/-- The outcome of the task spawned for chunk index `i` of `chunks`,
given the external service behavior `oracle` (chunk index and chunk
text in, service result out). -/
def taskOutcome (oracle : Nat → String → Except String (String × Nat × Nat))
    (chunks : List String) (i : Nat) : ChunkOutcome :=
  analyze_chunk (oracle i (chunks.getD i ""))

/-- The per-chunk outcomes in original chunk index order (what
`asyncio.gather` returns: one slot per spawned task, in the order the
tasks were appended). -/
def gatheredOutcomes (oracle : Nat → String → Except String (String × Nat × Nat))
    (chunks : List String) : List ChunkOutcome :=
  (List.range chunks.length).map (taskOutcome oracle chunks)

/-- Rendering of one gathered outcome in the reassembly loop: a
success contributes its analysis text, an exception contributes the
bracketed placeholder with the 1-based chunk number and the message. -/
def renderSegment (i : Nat) : ChunkOutcome → String
  | .ok (analysis, _, _) => analysis
  | .error msg => "[Error analyzing chunk " ++ toString (i + 1) ++ ": " ++ msg ++ "]"

/-- `final_analysis = "\n\n".join(combined_analysis)`: the rendered
segments in index order, joined by the fixed separator. -/
def combineResults (results : List ChunkOutcome) : String :=
  String.intercalate "\n\n" ((List.range results.length).map fun i =>
    renderSegment i (results.getD i (.error "")))

/-- The usage records made during one run: `analyze_chunk_async` calls
`cost_tracker.record_usage(input_tokens, output_tokens)` once per
successful chunk (a failing chunk raises before recording). -/
def usageRecords (oracle : Nat → String → Except String (String × Nat × Nat))
    (chunks : List String) : List (Nat × Nat) :=
  (List.range chunks.length).filterMap fun i =>
    match oracle i (chunks.getD i "") with
    | .ok (_, tin, tout) => some (tin, tout)
    | .error _ => none

/-- Analyzer configuration: `enable_cache` (with a non-`None`
`self.cache`), the cache TTL in seconds, and whether the cache write
performed by this run succeeds (models the `try/except` in
`AnalysisCache.set`). -/
structure AnalyzerConfig where
  enable_cache : Bool
  ttl : Int
  writeOk : Bool
deriving DecidableEq, Repr

/-- Observable result of one `analyze_logs_parallel` run: the returned
string, the number of chunk-processing calls dispatched to the
external service, the usage records made, and the cache directory
state after the run. -/
structure RunResult where
  output : String
  serviceCalls : Nat
  usage : List (Nat × Nat)
  store : CacheStore
deriving DecidableEq, Repr

/-- Lines 148–198 of `analyzer.py`: the post-cache-check path. Splits
the text; an empty chunk list returns the fixed sentinel; otherwise
every chunk is dispatched (one external call each), the gathered
outcomes are rendered and joined in index order, and — when caching is
enabled — the combined analysis is stored under the document key. -/
def processDocument (cfg : AnalyzerConfig)
    (oracle : Nat → String → Except String (String × Nat × Nat))
    (store : CacheStore) (now : Int) (log_text : String)
    (chunks : List String) : RunResult :=
  if chunks.isEmpty then
    { output := "No log content to analyze.", serviceCalls := 0, usage := [], store := store }
  else
    let final := combineResults (gatheredOutcomes oracle chunks)
    { output := final
      serviceCalls := chunks.length
      usage := usageRecords oracle chunks
      store := if cfg.enable_cache then cache_set cfg.writeOk store now log_text final
               else store }

/-- `LogAnalyzer.analyze_logs_parallel` (from line 142, i.e. on the
preprocessed `log_text`): when caching is enabled, consult the cache
first; the Python guard `if cached_result:` is a truthiness test, so
only a non-`None`, non-empty cached string short-circuits the run
(zero dispatches, zero usage records). Otherwise fall through to the
full processing path. -/
def analyze_logs_parallel (cfg : AnalyzerConfig)
    (split : String → List String)
    (oracle : Nat → String → Except String (String × Nat × Nat))
    (store : CacheStore) (now : Int) (log_text : String) : RunResult :=
  if cfg.enable_cache then
    match cache_get store cfg.ttl now log_text with
    | (some cached, store1) =>
        if cached = "" then processDocument cfg oracle store1 now log_text (split log_text)
        else { output := cached, serviceCalls := 0, usage := [], store := store1 }
    | (none, store1) => processDocument cfg oracle store1 now log_text (split log_text)
  else processDocument cfg oracle store now log_text (split log_text)

/-! ## Small-step semantics of the bounded concurrent dispatch

`analyze_logs_parallel` spawns one task per chunk; each task first
acquires the shared `asyncio.Semaphore(max_concurrent)`, then performs
the external call, then releases the semaphore (the `async with`
releases on success and on exception alike). A schedule is the list of
task indices picked by the event loop; picking a task that is pending
while the semaphore has a free slot admits it (acquire), picking a
running task completes it with its fixed outcome (external call
returns or raises, then release). Picking a blocked or finished task
is a no-op. -/

instance : DecidableEq ChunkOutcome := fun a b =>
  match a, b with
  | .ok x, .ok y => decidable_of_iff (x = y) (by simp)
  | .error x, .error y => decidable_of_iff (x = y) (by simp)
  | .ok _, .error _ => isFalse (by simp)
  | .error _, .ok _ => isFalse (by simp)

/-- Status of one spawned chunk task. -/
inductive TaskStatus where
  | pending : TaskStatus
  | running : TaskStatus
  | finished : ChunkOutcome → TaskStatus
deriving DecidableEq, Repr

/-- Event-loop state: one status per task (in spawn order) plus the
free-slot count of the semaphore. -/
structure SchedState where
  tasks : List TaskStatus
  sem : Nat
deriving DecidableEq, Repr

/-- One scheduling decision: let task `i` make its next transition, if
it has one available. -/
def schedStep (f : Nat → ChunkOutcome) (s : SchedState) (i : Nat) : Option SchedState :=
  match s.tasks.get? i with
  | some .pending =>
      if 0 < s.sem then some ⟨s.tasks.set i .running, s.sem - 1⟩ else none
  | some .running => some ⟨s.tasks.set i (.finished (f i)), s.sem + 1⟩
  | _ => none

/-- Run a schedule: unavailable transitions are skipped (a blocked
task stays blocked until picked again after a release). -/
def schedRun (f : Nat → ChunkOutcome) : SchedState → List Nat → SchedState
  | s, [] => s
  | s, i :: rest =>
      match schedStep f s i with
      | some s2 => schedRun f s2 rest
      | none => schedRun f s rest

/-- Initial event-loop state: `n` pending tasks,
`asyncio.Semaphore(max_concurrent)` full. -/
def initSched (n max_concurrent : Nat) : SchedState :=
  ⟨List.replicate n .pending, max_concurrent⟩

/-- What `asyncio.gather(*tasks, return_exceptions=True)` delivers
once every task is finished: the outcomes in task spawn order (`none`
while some task has not finished). -/
def gatherFinished : List TaskStatus → Option (List ChunkOutcome)
  | [] => some []
  | .finished r :: ts => (gatherFinished ts).map (r :: ·)
  | _ => none

/-- Whether a task currently holds a semaphore slot (is inside the
`async with semaphore:` region, calling the external service). -/
def isRunningTask : TaskStatus → Bool
  | .running => true
  | _ => false

/-- Number of tasks currently inside the semaphore-guarded region,
i.e. in flight at the external service. -/
def countRunning (s : SchedState) : Nat :=
  s.tasks.countP isRunningTask

/-! ## Rate limiter (`RateLimitMiddleware._check_rate_limit`)

State of the three sliding windows for one client identity (the
per-IP `defaultdict` rows for that IP). Timestamps are integer
seconds (`time.time()`). -/

/-- The three per-identity windows. -/
structure RLState where
  minute : List Int
  hour : List Int
  day : List Int
deriving DecidableEq, Repr

/-- The three configured maxima. -/
structure RLConfig where
  requests_per_minute : Nat
  requests_per_hour : Nat
  requests_per_day : Nat
deriving DecidableEq, Repr

/-- `_cleanup_old_requests`: drop timestamps older than each window's
duration (keep `ts` with `now - ts < duration`). -/
def cleanup_old_requests (now : Int) (st : RLState) : RLState :=
  ⟨st.minute.filter fun ts => now - ts < 60,
   st.hour.filter fun ts => now - ts < 3600,
   st.day.filter fun ts => now - ts < 86400⟩

/-- `_check_rate_limit`: prune, then check minute, hour, day in that
order (`len(window) >= limit` rejects with a reason naming the
window); only if all three pass is `now` appended to all three
windows. Returns `(allowed, reason, new window state)`. -/
def check_rate_limit (cfg : RLConfig) (st : RLState) (now : Int) :
    Bool × String × RLState :=
  let c := cleanup_old_requests now st
  if cfg.requests_per_minute ≤ c.minute.length then
    (false, "Rate limit exceeded: " ++ toString cfg.requests_per_minute ++
      " requests per minute", c)
  else if cfg.requests_per_hour ≤ c.hour.length then
    (false, "Rate limit exceeded: " ++ toString cfg.requests_per_hour ++
      " requests per hour", c)
  else if cfg.requests_per_day ≤ c.day.length then
    (false, "Rate limit exceeded: " ++ toString cfg.requests_per_day ++
      " requests per day", c)
  else
    (true, "", ⟨c.minute ++ [now], c.hour ++ [now], c.day ++ [now]⟩)

/-! ## Cost tracker (`CostTracker`)

Prices are exact rationals; the calendar day (`datetime.now()
.strftime("%Y-%m-%d")`) is passed explicitly as `today`. -/

/-- The `PRICING` table: (model, price per input token, price per
output token). -/
def PRICING : List (String × ℚ × ℚ) :=
  [("gpt-4o-mini", (0.15 : ℚ) / 1000000, (0.60 : ℚ) / 1000000),
   ("gpt-4o", (2.50 : ℚ) / 1000000, (10.00 : ℚ) / 1000000),
   ("gpt-3.5-turbo", (0.50 : ℚ) / 1000000, (1.50 : ℚ) / 1000000)]

/-- `model in PRICING` lookup. -/
def lookupPricing : List (String × ℚ × ℚ) → String → Option (ℚ × ℚ)
  | [], _ => none
  | (k, p) :: rest, m => if m == k then some p else lookupPricing rest m

/-- In-memory rollups: `daily_costs` and `daily_usage`, both
`defaultdict`s keyed by the calendar-date string. -/
structure CostState where
  daily_costs : List (String × ℚ)
  daily_usage : List (String × Nat)
deriving DecidableEq, Repr

/-- `self.daily_costs[today] += cost` on a `defaultdict(float)`. -/
def addDailyCost : List (String × ℚ) → String → ℚ → List (String × ℚ)
  | [], d, c => [(d, c)]
  | (k, v) :: rest, d, c =>
      if d == k then (k, v + c) :: rest else (k, v) :: addDailyCost rest d c

/-- `self.daily_usage[today] += 1` on a `defaultdict(int)`. -/
def addDailyUsage : List (String × Nat) → String → List (String × Nat)
  | [], d => [(d, 1)]
  | (k, v) :: rest, d =>
      if d == k then (k, v + 1) :: rest else (k, v) :: addDailyUsage rest d

/-- `CostTracker.record_usage`: unknown models fall back to the
`"gpt-4o-mini"` pricing; the cost is
`input_tokens * price_in + output_tokens * price_out`, added to
today's cost rollup while today's request count is incremented.
Returns the cost and the updated rollups. -/
def record_usage (st : CostState) (model : String)
    (input_tokens output_tokens : Nat) (today : String) : ℚ × CostState :=
  let m := match lookupPricing PRICING model with
           | some _ => model
           | none => "gpt-4o-mini"
  let p := (lookupPricing PRICING m).getD (0, 0)
  let cost := input_tokens * p.1 + output_tokens * p.2
  (cost, ⟨addDailyCost st.daily_costs today cost, addDailyUsage st.daily_usage today⟩)

/-- `dict.get(date, 0.0)` on the cost rollup. -/
def lookupDailyCost : List (String × ℚ) → String → ℚ
  | [], _ => 0
  | (k, v) :: rest, d => if d == k then v else lookupDailyCost rest d

/-- `dict.get(date, 0)` on the request-count rollup. -/
def lookupDailyUsage : List (String × Nat) → String → Nat
  | [], _ => 0
  | (k, v) :: rest, d => if d == k then v else lookupDailyUsage rest d

/-- `CostTracker.get_daily_cost`: the day's accumulated cost,
`0.0` for an unseen day. -/
def get_daily_cost (st : CostState) (date : String) : ℚ :=
  lookupDailyCost st.daily_costs date

/-- The day's request count (`self.daily_usage` row), `0` for an
unseen day. -/
def get_daily_usage (st : CostState) (date : String) : Nat :=
  lookupDailyUsage st.daily_usage date

/-- The all-`'a'` document of length `n`: an infinite family of
documents that normalization maps to pairwise distinct contents (used
to exhibit the counting bound on fingerprints). -/
def allA (n : Nat) : String := String.mk (List.replicate n 'a')

instance : Finite Char :=
  Finite.of_injective (fun c : Char => c.val.toBitVec.toFin)
    (fun a b h => by
      have h2 : a.val.toBitVec = b.val.toBitVec := BitVec.eq_of_toFin_eq h
      have hv : a.val = b.val := by
        cases ha : a.val
        cases hb : b.val
        simp only [ha, hb] at h2
        simp [h2]
      exact Char.ext hv)

/-! ## Helper lemmas -/

theorem lookupDailyCost_add (l : List (String × ℚ)) (d : String) (c : ℚ) :
    lookupDailyCost (addDailyCost l d c) d = lookupDailyCost l d + c := by
  induction l with
  | nil => simp [addDailyCost, lookupDailyCost]
  | cons kv rest ih =>
      obtain ⟨k, v⟩ := kv
      by_cases h : d == k
      · simp [addDailyCost, lookupDailyCost, h]
      · simp [addDailyCost, lookupDailyCost, h, ih]

theorem lookupDailyUsage_add (l : List (String × Nat)) (d : String) :
    lookupDailyUsage (addDailyUsage l d) d = lookupDailyUsage l d + 1 := by
  induction l with
  | nil => simp [addDailyUsage, lookupDailyUsage]
  | cons kv rest ih =>
      obtain ⟨k, v⟩ := kv
      by_cases h : d == k
      · simp [addDailyUsage, lookupDailyUsage, h]
      · simp [addDailyUsage, lookupDailyUsage, h, ih]

theorem lookupStore_eraseStore (store : CacheStore) (key : String) :
    lookupStore (eraseStore store key) key = none := by
  induction store with
  | nil => simp [eraseStore, lookupStore]
  | cons kv rest ih =>
      obtain ⟨k, v⟩ := kv
      by_cases h : k = key
      · simpa [eraseStore, h] using ih
      · have hk : (k == key) = false := by simp [h]
        have h2 : (key == k) = false := by simp [Ne.symm h]
        simp only [eraseStore] at ih ⊢
        rw [List.filter_cons]
        simp [hk, lookupStore, h2, ih]

theorem lookupStore_insertStore (store : CacheStore) (key : String) (v : StoredEntry) :
    lookupStore (insertStore store key v) key = some v := by
  induction store with
  | nil => simp [insertStore, lookupStore]
  | cons kv rest ih =>
      obtain ⟨k0, v0⟩ := kv
      by_cases h : key = k0
      · simp [insertStore, lookupStore, h]
      · simp [insertStore, lookupStore, h, ih]

theorem processDocument_output (cfg : AnalyzerConfig)
    (oracle : Nat → String → Except String (String × Nat × Nat))
    (store : CacheStore) (now : Int) (log_text : String) (chunks : List String) :
    (processDocument cfg oracle store now log_text chunks).output =
      if chunks.isEmpty then "No log content to analyze."
      else combineResults (gatheredOutcomes oracle chunks) := by
  by_cases h : chunks.isEmpty <;> simp [processDocument, h]

theorem processDocument_serviceCalls (cfg : AnalyzerConfig)
    (oracle : Nat → String → Except String (String × Nat × Nat))
    (store : CacheStore) (now : Int) (log_text : String) (chunks : List String) :
    (processDocument cfg oracle store now log_text chunks).serviceCalls =
      chunks.length := by
  by_cases h : chunks.isEmpty
  · simp only [List.isEmpty_iff] at h
    simp [processDocument, h]
  · simp [processDocument, h]

theorem processDocument_usage (cfg : AnalyzerConfig)
    (oracle : Nat → String → Except String (String × Nat × Nat))
    (store : CacheStore) (now : Int) (log_text : String) (chunks : List String) :
    (processDocument cfg oracle store now log_text chunks).usage =
      if chunks.isEmpty then [] else usageRecords oracle chunks := by
  by_cases h : chunks.isEmpty <;> simp [processDocument, h]

theorem cache_set_true (store : CacheStore) (now : Int) (doc analysis : String) :
    cache_set true store now doc analysis =
      insertStore store (get_cache_key doc) (.valid now analysis) := by
  simp [cache_set, cache_set_body]

/-- A `get` that answered "absent" keeps answering "absent" for the
same document until something is stored for it: the miss either found
nothing, found a corrupt file (left in place, unreadable again), or
found an expired entry (deleted on the spot). -/
theorem cache_get_none_again (store : CacheStore) (ttl now now2 : Int) (doc : String) :
    (cache_get store ttl now doc).1 = none →
    (cache_get (cache_get store ttl now doc).2 ttl now2 doc).1 = none := by
  intro h
  rcases hl : lookupStore store (get_cache_key doc) with _ | e
  · simp [cache_get, hl]
  · rcases e with ⟨ts, a⟩ | _
    · by_cases hexp : now - ts > ttl
      · simp [cache_get, hl, cache_get_body, hexp, lookupStore_eraseStore]
      · simp [cache_get, hl, cache_get_body, hexp] at h
    · simp [cache_get, hl, cache_get_body]

/-! ## Claim C5 — rate limiter admission -/

/-- C5: on every admission check, `_check_rate_limit` first prunes
each window, then checks the minute, hour, day limits in that order,
returning not-allowed with a reason naming the first exceeded window;
`now` is appended to all three windows if and only if no limit is
reached (all-or-nothing admission). With `requests_per_minute = 3`,
four calls within one second yield allowed, allowed, allowed,
not-allowed with the minute reason, and a call 61 seconds after the
last admitted one is admitted again. -/
theorem claim_C5 :
    (∀ (cfg : RLConfig) (st : RLState) (now : Int),
      ((check_rate_limit cfg st now).1 = true ↔
        (cleanup_old_requests now st).minute.length < cfg.requests_per_minute ∧
        (cleanup_old_requests now st).hour.length < cfg.requests_per_hour ∧
        (cleanup_old_requests now st).day.length < cfg.requests_per_day) ∧
      ((check_rate_limit cfg st now).1 = true →
        (check_rate_limit cfg st now).2.2 =
          ⟨(cleanup_old_requests now st).minute ++ [now],
           (cleanup_old_requests now st).hour ++ [now],
           (cleanup_old_requests now st).day ++ [now]⟩) ∧
      ((check_rate_limit cfg st now).1 = false →
        (check_rate_limit cfg st now).2.2 = cleanup_old_requests now st) ∧
      (cfg.requests_per_minute ≤ (cleanup_old_requests now st).minute.length →
        (check_rate_limit cfg st now).2.1 =
          "Rate limit exceeded: " ++ toString cfg.requests_per_minute ++
            " requests per minute") ∧
      ((cleanup_old_requests now st).minute.length < cfg.requests_per_minute →
        cfg.requests_per_hour ≤ (cleanup_old_requests now st).hour.length →
        (check_rate_limit cfg st now).2.1 =
          "Rate limit exceeded: " ++ toString cfg.requests_per_hour ++
            " requests per hour") ∧
      ((cleanup_old_requests now st).minute.length < cfg.requests_per_minute →
        (cleanup_old_requests now st).hour.length < cfg.requests_per_hour →
        cfg.requests_per_day ≤ (cleanup_old_requests now st).day.length →
        (check_rate_limit cfg st now).2.1 =
          "Rate limit exceeded: " ++ toString cfg.requests_per_day ++
            " requests per day")) ∧
    ((check_rate_limit ⟨3, 100, 1000⟩ ⟨[], [], []⟩ 0).1 = true ∧
     (check_rate_limit ⟨3, 100, 1000⟩
       (check_rate_limit ⟨3, 100, 1000⟩ ⟨[], [], []⟩ 0).2.2 0).1 = true ∧
     (check_rate_limit ⟨3, 100, 1000⟩
       (check_rate_limit ⟨3, 100, 1000⟩
         (check_rate_limit ⟨3, 100, 1000⟩ ⟨[], [], []⟩ 0).2.2 0).2.2 1).1 = true ∧
     (check_rate_limit ⟨3, 100, 1000⟩
       (check_rate_limit ⟨3, 100, 1000⟩
         (check_rate_limit ⟨3, 100, 1000⟩
           (check_rate_limit ⟨3, 100, 1000⟩ ⟨[], [], []⟩ 0).2.2 0).2.2 1).2.2 1).1 =
       false ∧
     (check_rate_limit ⟨3, 100, 1000⟩
       (check_rate_limit ⟨3, 100, 1000⟩
         (check_rate_limit ⟨3, 100, 1000⟩
           (check_rate_limit ⟨3, 100, 1000⟩ ⟨[], [], []⟩ 0).2.2 0).2.2 1).2.2 1).2.1 =
       "Rate limit exceeded: 3 requests per minute" ∧
     (check_rate_limit ⟨3, 100, 1000⟩
       (check_rate_limit ⟨3, 100, 1000⟩
         (check_rate_limit ⟨3, 100, 1000⟩
           (check_rate_limit ⟨3, 100, 1000⟩
             (check_rate_limit ⟨3, 100, 1000⟩ ⟨[], [], []⟩ 0).2.2 0).2.2 1).2.2 1).2.2
       62).1 = true) := by
  constructor
  · intro cfg st now
    refine ⟨?_, ?_, ?_, ?_, ?_, ?_⟩ <;>
      simp only [check_rate_limit] <;>
      split_ifs with h1 h2 h3 <;> simp_all <;> omega
  · decide

/-- Witness for C5: the general part applied at a concrete state —
one identity with two fresh minute-window timestamps against a limit
of 2 is rejected with the minute reason and its windows only pruned. -/
theorem claim_C5_witness :
    (check_rate_limit ⟨2, 5, 5⟩ ⟨[0, 1], [0, 1], [0, 1]⟩ 2).2.1 =
      "Rate limit exceeded: 2 requests per minute" ∧
    (check_rate_limit ⟨2, 5, 5⟩ ⟨[0, 1], [0, 1], [0, 1]⟩ 2).2.2 =
      cleanup_old_requests 2 ⟨[0, 1], [0, 1], [0, 1]⟩ := by
  refine ⟨(claim_C5.1 ⟨2, 5, 5⟩ ⟨[0, 1], [0, 1], [0, 1]⟩ 2).2.2.2.1 (by decide),
          (claim_C5.1 ⟨2, 5, 5⟩ ⟨[0, 1], [0, 1], [0, 1]⟩ 2).2.2.1 ?_⟩
  have h := (claim_C5.1 ⟨2, 5, 5⟩ ⟨[0, 1], [0, 1], [0, 1]⟩ 2).1
  revert h
  decide

/-! ## Claim C6 — cache TTL expiry -/

/-- C6: `AnalysisCache.get` returns the stored analysis when the
entry's timestamp is within the TTL (`now - ts ≤ ttl`, the store
untouched), and treats an entry strictly older than the TTL as
absent: it returns `None` and deletes the expired entry, so a later
lookup of the same document finds nothing. -/
theorem claim_C6 :
    ∀ (store : CacheStore) (ttl now ts : Int) (doc analysis : String),
      lookupStore store (get_cache_key doc) = some (.valid ts analysis) →
      (now - ts ≤ ttl →
        cache_get store ttl now doc = (some analysis, store)) ∧
      (now - ts > ttl →
        (cache_get store ttl now doc).1 = none ∧
        lookupStore (cache_get store ttl now doc).2 (get_cache_key doc) = none) := by
  intro store ttl now ts doc analysis h
  constructor
  · intro hle
    simp [cache_get, h, cache_get_body, show ¬now - ts > ttl by omega]
  · intro hgt
    simp [cache_get, h, cache_get_body, hgt, lookupStore_eraseStore]

/-- Witness for C6: a concrete store holding a 5-second-old entry
with TTL 10 returns the stored analysis; the same entry probed 20
seconds after creation is absent and deleted. -/
theorem claim_C6_witness :
    (cache_get [(get_cache_key "boot log", StoredEntry.valid 0 "all good")] 10 5
        "boot log" =
      (some "all good", [(get_cache_key "boot log", StoredEntry.valid 0 "all good")])) ∧
    ((cache_get [(get_cache_key "boot log", StoredEntry.valid 0 "all good")] 10 20
        "boot log").1 = none ∧
      lookupStore
        (cache_get [(get_cache_key "boot log", StoredEntry.valid 0 "all good")] 10 20
          "boot log").2 (get_cache_key "boot log") = none) :=
  ⟨(claim_C6 _ 10 5 0 "boot log" "all good" (by simp [lookupStore])).1 (by norm_num),
   (claim_C6 _ 10 20 0 "boot log" "all good" (by simp [lookupStore])).2 (by norm_num)⟩

/-! ## Claim C9 — cache storage failures never propagate -/

/-- C9: neither `AnalysisCache.get` nor `AnalysisCache.set`
propagates a storage error. A corrupt/unreadable entry makes the body
of `get` raise, but `get` catches it and returns `None` with the
store untouched; a failing write makes the body of `set` raise, but
`set` catches it and returns normally with the store unchanged; and a
run of `analyze_logs_parallel` whose cache write fails returns
exactly the same output, dispatch count and usage records as one
whose write succeeds — only the caching side effect is lost. -/
theorem claim_C9 :
    ∀ (store : CacheStore) (ttl now : Int) (doc analysis : String)
      (split : String → List String)
      (oracle : Nat → String → Except String (String × Nat × Nat)),
      (lookupStore store (get_cache_key doc) = some .corrupt →
        cache_get_body store ttl now (get_cache_key doc) .corrupt =
          .error "failed to read cache" ∧
        cache_get store ttl now doc = (none, store)) ∧
      (cache_set_body false store now (get_cache_key doc) analysis =
          .error "failed to write cache" ∧
        cache_set false store now doc analysis = store) ∧
      ((analyze_logs_parallel ⟨true, ttl, false⟩ split oracle store now doc).output =
          (analyze_logs_parallel ⟨true, ttl, true⟩ split oracle store now doc).output ∧
        (analyze_logs_parallel ⟨true, ttl, false⟩ split oracle store now
              doc).serviceCalls =
          (analyze_logs_parallel ⟨true, ttl, true⟩ split oracle store now
              doc).serviceCalls ∧
        (analyze_logs_parallel ⟨true, ttl, false⟩ split oracle store now doc).usage =
          (analyze_logs_parallel ⟨true, ttl, true⟩ split oracle store now doc).usage) := by
  intro store ttl now doc analysis split oracle
  refine ⟨?_, ?_, ?_⟩
  · intro h
    exact ⟨rfl, by simp [cache_get, h, cache_get_body]⟩
  · exact ⟨rfl, by simp [cache_set, cache_set_body]⟩
  · rcases hcg : cache_get store ttl now doc with ⟨r, st1⟩
    rcases r with _ | c
    · simp [analyze_logs_parallel, hcg, processDocument_output,
        processDocument_serviceCalls, processDocument_usage]
    · by_cases hc : c = ""
      · simp [analyze_logs_parallel, hcg, hc, processDocument_output,
          processDocument_serviceCalls, processDocument_usage]
      · simp [analyze_logs_parallel, hcg, hc]

/-- Witness for C9: a concrete corrupt entry is treated as absent
with the store untouched, and a failing write leaves a concrete store
unchanged. -/
theorem claim_C9_witness :
    cache_get [(get_cache_key "x", StoredEntry.corrupt)] 10 0 "x" =
      (none, [(get_cache_key "x", StoredEntry.corrupt)]) ∧
    cache_set false [] 0 "x" "result" = [] :=
  ⟨((claim_C9 [(get_cache_key "x", StoredEntry.corrupt)] 10 0 "x" "result"
      (fun _ => []) (fun _ _ => .error "")).1 (by simp [lookupStore])).2,
   ((claim_C9 [] 10 0 "x" "result" (fun _ => []) (fun _ _ => .error "")).2.1).2⟩

/-! ## Claim C10 — empty cached string is treated as a miss -/

/-- C10: with caching enabled, a stored analysis equal to the empty
string is returned by `get` (the entry exists and is un-expired), yet
`analyze_logs_parallel` treats it as a miss: the guard
`if cached_result:` is a truthiness test, so the document is re-split
and all its chunks are re-dispatched to the external service. -/
theorem claim_C10 :
    ∀ (store : CacheStore) (ttl now ts : Int) (doc : String)
      (split : String → List String)
      (oracle : Nat → String → Except String (String × Nat × Nat)) (writeOk : Bool),
      lookupStore store (get_cache_key doc) = some (.valid ts "") →
      now - ts ≤ ttl →
      cache_get store ttl now doc = (some "", store) ∧
      analyze_logs_parallel ⟨true, ttl, writeOk⟩ split oracle store now doc =
        processDocument ⟨true, ttl, writeOk⟩ oracle store now doc (split doc) ∧
      (analyze_logs_parallel ⟨true, ttl, writeOk⟩ split oracle store now
          doc).serviceCalls = (split doc).length := by
  intro store ttl now ts doc split oracle writeOk h httl
  have hget : cache_get store ttl now doc = (some "", store) := by
    simp [cache_get, h, cache_get_body, show ¬now - ts > ttl by omega]
  refine ⟨hget, ?_, ?_⟩ <;>
    simp [analyze_logs_parallel, hget, processDocument_serviceCalls]

/-- Witness for C10: a concrete un-expired entry storing `""` — the
run dispatches its one chunk to the service instead of returning the
cached value. -/
theorem claim_C10_witness :
    cache_get [(get_cache_key "err", StoredEntry.valid 0 "")] 100 7 "err" =
      (some "", [(get_cache_key "err", StoredEntry.valid 0 "")]) ∧
    (analyze_logs_parallel ⟨true, 100, true⟩ (fun _ => ["err"])
        (fun _ _ => .ok ("fine", 3, 4))
        [(get_cache_key "err", StoredEntry.valid 0 "")] 7 "err").serviceCalls = 1 := by
  have h := claim_C10 [(get_cache_key "err", StoredEntry.valid 0 "")] 100 7 0 "err"
    (fun _ => ["err"]) (fun _ _ => .ok ("fine", 3, 4)) true
    (by simp [lookupStore]) (by norm_num)
  exact ⟨h.1, h.2.2⟩

/-! ## Scheduler lemmas -/

theorem countP_set_eq (p : TaskStatus → Bool) (ts : List TaskStatus) (i : Nat)
    (a b : TaskStatus) (h : ts.get? i = some a) :
    (ts.set i b).countP p + (if p a then 1 else 0) =
      ts.countP p + (if p b then 1 else 0) := by
  induction ts generalizing i with
  | nil => simp at h
  | cons x xs ih =>
      cases i with
      | zero =>
          simp only [List.get?] at h
          injection h with h
          subst h
          simp [List.countP_cons]
          omega
      | succ j =>
          simp only [List.get?] at h
          have := ih j h
          simp [List.countP_cons]
          omega

theorem schedStep_cases (f : Nat → ChunkOutcome) (s s2 : SchedState) (i : Nat)
    (h : schedStep f s i = some s2) :
    (s.tasks.get? i = some .pending ∧ 0 < s.sem ∧
      s2 = ⟨s.tasks.set i .running, s.sem - 1⟩) ∨
    (s.tasks.get? i = some .running ∧
      s2 = ⟨s.tasks.set i (.finished (f i)), s.sem + 1⟩) := by
  unfold schedStep at h
  rcases hg : s.tasks.get? i with _ | t <;> rw [hg] at h
  · simp at h
  · cases t with
    | pending =>
        by_cases hsem : 0 < s.sem
        · rw [if_pos hsem] at h
          injection h with h
          exact Or.inl ⟨rfl, hsem, h.symm⟩
        · rw [if_neg hsem] at h
          simp at h
    | running =>
        injection h with h
        exact Or.inr ⟨rfl, h.symm⟩
    | finished r => simp at h

theorem schedStep_finished (f : Nat → ChunkOutcome) (s s2 : SchedState) (i : Nat)
    (h : schedStep f s i = some s2)
    (hc : ∀ j r, s.tasks.get? j = some (.finished r) → r = f j) :
    ∀ j r, s2.tasks.get? j = some (.finished r) → r = f j := by
  intro j r hj
  rcases schedStep_cases f s s2 i h with ⟨hg, _, rfl⟩ | ⟨hg, rfl⟩ <;>
    by_cases hij : i = j
  · subst hij
    rw [List.get?_set_eq_of_lt _ (List.get?_eq_some.mp hg).1] at hj
    simp at hj
  · rw [List.get?_set_ne _ _ hij] at hj
    exact hc j r hj
  · subst hij
    rw [List.get?_set_eq_of_lt _ (List.get?_eq_some.mp hg).1] at hj
    injection hj with hj
    injection hj with hj
    exact hj.symm
  · rw [List.get?_set_ne _ _ hij] at hj
    exact hc j r hj

theorem schedStep_length (f : Nat → ChunkOutcome) (s s2 : SchedState) (i : Nat)
    (h : schedStep f s i = some s2) : s2.tasks.length = s.tasks.length := by
  rcases schedStep_cases f s s2 i h with ⟨_, _, rfl⟩ | ⟨_, rfl⟩ <;> simp

theorem schedStep_sem (f : Nat → ChunkOutcome) (s s2 : SchedState) (i : Nat)
    (cap : Nat) (h : schedStep f s i = some s2)
    (hs : countRunning s + s.sem = cap) : countRunning s2 + s2.sem = cap := by
  unfold countRunning at hs ⊢
  rcases schedStep_cases f s s2 i h with ⟨hg, hsem, rfl⟩ | ⟨hg, rfl⟩
  · have hcount := countP_set_eq isRunningTask s.tasks i .pending .running hg
    simp [isRunningTask] at hcount
    simp
    omega
  · have hcount := countP_set_eq isRunningTask s.tasks i .running (.finished (f i)) hg
    simp [isRunningTask] at hcount
    simp
    omega

theorem schedRun_finished (f : Nat → ChunkOutcome) (sched : List Nat) :
    ∀ (s : SchedState),
      (∀ j r, s.tasks.get? j = some (.finished r) → r = f j) →
      ∀ j r, (schedRun f s sched).tasks.get? j = some (.finished r) → r = f j := by
  induction sched with
  | nil => intro s hc; exact hc
  | cons i rest ih =>
      intro s hc
      unfold schedRun
      rcases hstep : schedStep f s i with _ | s2
      · exact ih s hc
      · exact ih s2 (schedStep_finished f s s2 i hstep hc)

theorem schedRun_length (f : Nat → ChunkOutcome) (sched : List Nat) :
    ∀ s : SchedState, (schedRun f s sched).tasks.length = s.tasks.length := by
  induction sched with
  | nil => intro s; rfl
  | cons i rest ih =>
      intro s
      unfold schedRun
      rcases hstep : schedStep f s i with _ | s2
      · exact ih s
      · rw [ih s2, schedStep_length f s s2 i hstep]

theorem schedRun_sem (f : Nat → ChunkOutcome) (sched : List Nat) (cap : Nat) :
    ∀ s : SchedState, countRunning s + s.sem = cap →
      countRunning (schedRun f s sched) + (schedRun f s sched).sem = cap := by
  induction sched with
  | nil => intro s hs; exact hs
  | cons i rest ih =>
      intro s hs
      unfold schedRun
      rcases hstep : schedStep f s i with _ | s2
      · exact ih s hs
      · exact ih s2 (schedStep_sem f s s2 i cap hstep hs)

theorem gatherFinished_eq (f : Nat → ChunkOutcome) :
    ∀ (ts : List TaskStatus) (k : Nat) (res : List ChunkOutcome),
      (∀ j r, ts.get? j = some (.finished r) → r = f (k + j)) →
      gatherFinished ts = some res →
      res = (List.range ts.length).map fun j => f (k + j) := by
  intro ts
  induction ts with
  | nil =>
      intro k res hc hg
      simp [gatherFinished] at hg
      subst hg
      simp
  | cons t ts ih =>
      intro k res hc hg
      cases t with
      | pending => simp [gatherFinished] at hg
      | running => simp [gatherFinished] at hg
      | finished r0 =>
          rcases hrest : gatherFinished ts with _ | res0 <;>
            simp [gatherFinished, hrest] at hg
          subst hg
          have h0 : r0 = f (k + 0) := hc 0 r0 (by simp [List.get?])
          have htail : ∀ j r, ts.get? j = some (.finished r) → r = f (k + 1 + j) := by
            intro j r hj
            have h1 := hc (j + 1) r (by simpa [List.get?] using hj)
            rw [show k + (j + 1) = k + 1 + j by omega] at h1
            exact h1
          rw [ih (k + 1) res0 htail hrest, h0]
          show f (k + 0) :: (List.range ts.length).map (fun j => f (k + 1 + j)) =
            (List.range (ts.length + 1)).map fun j => f (k + j)
          rw [List.range_succ_eq_map]
          simp only [List.map_cons, List.map_map, Function.comp]
          congr 1
          apply List.map_congr_left
          intro a _
          congr 1
          omega

theorem countP_isRunning_replicate (n : Nat) :
    (List.replicate n TaskStatus.pending).countP isRunningTask = 0 := by
  induction n with
  | zero => simp
  | succ m ih => simp [List.replicate_succ, List.countP_cons, isRunningTask, ih]

/-- Any schedule that drives every task to completion gathers exactly
the fixed per-task outcomes, in task spawn order — independently of
the semaphore capacity and of the interleaving taken. -/
theorem schedRun_gather (f : Nat → ChunkOutcome) (n cap : Nat) (sched : List Nat)
    (res : List ChunkOutcome)
    (h : gatherFinished (schedRun f (initSched n cap) sched).tasks = some res) :
    res = (List.range n).map f := by
  have hc : ∀ j r, (initSched n cap).tasks.get? j = some (.finished r) → r = f j := by
    intro j r hj
    rcases Nat.lt_or_ge j n with hl | hl
    · simp [initSched, List.get?_eq_getElem?, List.getElem?_replicate, hl] at hj
    · simp [initSched, List.get?_eq_getElem?, List.getElem?_replicate,
        show ¬j < n by omega] at hj
  have hfin := schedRun_finished f sched (initSched n cap) hc
  have hlen : (schedRun f (initSched n cap) sched).tasks.length = n := by
    rw [schedRun_length]
    simp [initSched]
  have heq := gatherFinished_eq f (schedRun f (initSched n cap) sched).tasks 0 res
    (by intro j r hj; simpa using hfin j r hj) h
  rw [hlen] at heq
  simpa using heq

/-! ## Claim C3 — determinism under concurrency -/

/-- C3: for a fixed chunk sequence and fixed per-chunk outcomes, any
two completed concurrent executions — any semaphore capacities, any
completion interleavings — gather the same outcome list (in original
chunk index order), so the CombinedResult is byte-identical regardless
of completion order and of `max_concurrent`; and it equals the output
of `analyze_logs_parallel` itself, i.e. the strictly sequential
rendering of the outcomes in chunk order (the `max_concurrent = 1`
degenerate case is the instance `cap1 = 1`). -/
theorem claim_C3 :
    ∀ (split : String → List String)
      (oracle : Nat → String → Except String (String × Nat × Nat))
      (doc : String) (cap1 cap2 : Nat) (sched1 sched2 : List Nat)
      (res1 res2 : List ChunkOutcome) (cfg : AnalyzerConfig)
      (store : CacheStore) (now : Int),
      gatherFinished (schedRun (taskOutcome oracle (split doc))
        (initSched (split doc).length cap1) sched1).tasks = some res1 →
      gatherFinished (schedRun (taskOutcome oracle (split doc))
        (initSched (split doc).length cap2) sched2).tasks = some res2 →
      res1 = gatheredOutcomes oracle (split doc) ∧
      res2 = res1 ∧
      combineResults res2 = combineResults res1 ∧
      (cfg.enable_cache = false → split doc ≠ [] →
        (analyze_logs_parallel cfg split oracle store now doc).output =
          combineResults res1) := by
  intro split oracle doc cap1 cap2 sched1 sched2 res1 res2 cfg store now h1 h2
  have e1 := schedRun_gather _ _ cap1 sched1 res1 h1
  have e2 := schedRun_gather _ _ cap2 sched2 res2 h2
  have hg : res1 = gatheredOutcomes oracle (split doc) := by rw [e1]; rfl
  refine ⟨hg, by rw [e1, e2], by rw [e1, e2], ?_⟩
  intro hc hne
  have hemp : ¬(split doc).isEmpty := by simpa [List.isEmpty_iff] using hne
  rw [show analyze_logs_parallel cfg split oracle store now doc =
      processDocument cfg oracle store now doc (split doc) from by
        simp [analyze_logs_parallel, hc],
    processDocument_output, if_neg hemp, hg]

/-- Witness for C3: two chunks, one succeeding and one failing, run
once under capacity 1 with schedule `[0,0,1,1]` and once under
capacity 2 with schedule `[1,1,0,0]` — both complete with the same
gathered outcome list, equal to the outcomes in chunk order. -/
theorem claim_C3_witness :
    gatherFinished (schedRun
        (taskOutcome
          (fun i _ => if i = 0 then Except.ok ("X", 1, 2) else Except.error "e")
          ((fun _ : String => ["a", "b"]) "doc"))
        (initSched ((fun _ : String => ["a", "b"]) "doc").length 1)
        [0, 0, 1, 1]).tasks =
      some [Except.ok ("X", 1, 2),
            Except.error "Failed to analyze log chunk: e"] ∧
    gatherFinished (schedRun
        (taskOutcome
          (fun i _ => if i = 0 then Except.ok ("X", 1, 2) else Except.error "e")
          ((fun _ : String => ["a", "b"]) "doc"))
        (initSched ((fun _ : String => ["a", "b"]) "doc").length 2)
        [1, 1, 0, 0]).tasks =
      some [Except.ok ("X", 1, 2),
            Except.error "Failed to analyze log chunk: e"] ∧
    [Except.ok ("X", 1, 2), Except.error "Failed to analyze log chunk: e"] =
      gatheredOutcomes
        (fun i _ => if i = 0 then Except.ok ("X", 1, 2) else Except.error "e")
        ["a", "b"] := by
  have h := claim_C3 (fun _ => ["a", "b"])
    (fun i _ => if i = 0 then Except.ok ("X", 1, 2) else Except.error "e") "doc" 1 2
    [0, 0, 1, 1] [1, 1, 0, 0]
    [Except.ok ("X", 1, 2), Except.error "Failed to analyze log chunk: e"]
    [Except.ok ("X", 1, 2), Except.error "Failed to analyze log chunk: e"]
    ⟨false, 0, true⟩ [] 0 (by decide) (by decide)
  exact ⟨by decide, by decide, h.1⟩

/-! ## Claim C4 — bounded in-flight parallelism -/

/-- C4: at every point of every run over any number of tasks, at most
`max_concurrent` chunk tasks are inside the semaphore-guarded region
(in flight at the external service); a pending task cannot proceed
while no slot is free (it blocks until a release); and completing a
task releases its slot unconditionally — the step that finishes task
`i` returns the slot whether its outcome `f i` is a success or a
failure value. -/
theorem claim_C4 :
    ∀ (f : Nat → ChunkOutcome) (n max_concurrent : Nat) (sched : List Nat),
      countRunning (schedRun f (initSched n max_concurrent) sched) ≤
        max_concurrent ∧
      (∀ (s : SchedState) (i : Nat),
        s.tasks.get? i = some .pending → s.sem = 0 → schedStep f s i = none) ∧
      (∀ (s : SchedState) (i : Nat),
        s.tasks.get? i = some .running →
        schedStep f s i = some ⟨s.tasks.set i (.finished (f i)), s.sem + 1⟩) := by
  intro f n cap sched
  refine ⟨?_, ?_, ?_⟩
  · have h0 : countRunning (initSched n cap) + (initSched n cap).sem = cap := by
      simp [countRunning, initSched, countP_isRunning_replicate]
    have h := schedRun_sem f sched cap (initSched n cap) h0
    omega
  · intro s i h hs
    rw [List.get?_eq_getElem?] at h
    simp [schedStep, h, hs]
  · intro s i h
    rw [List.get?_eq_getElem?] at h
    simp [schedStep, h]

/-- Witness for C4: a concrete bounded run (three tasks, capacity 2)
stays within the bound; a concrete pending task with an exhausted
semaphore is blocked; a concrete running task's completion — with a
failure outcome — still releases the slot. -/
theorem claim_C4_witness :
    countRunning (schedRun (fun _ => Except.error "x") (initSched 3 2)
      [0, 1, 2, 0]) ≤ 2 ∧
    schedStep (fun _ => Except.error "x") ⟨[TaskStatus.pending], 0⟩ 0 = none ∧
    schedStep (fun _ => Except.error "x") ⟨[TaskStatus.running], 5⟩ 0 =
      some ⟨[TaskStatus.finished (Except.error "x")], 6⟩ := by
  refine ⟨(claim_C4 (fun _ => Except.error "x") 3 2 [0, 1, 2, 0]).1,
    (claim_C4 (fun _ => Except.error "x") 3 2 []).2.1 ⟨[TaskStatus.pending], 0⟩ 0
      (by decide) rfl, ?_⟩
  have h := (claim_C4 (fun _ => Except.error "x") 3 2 []).2.2
    ⟨[TaskStatus.running], 5⟩ 0 (by decide)
  simpa using h

/-! ## Claim C1 — cache hit short-circuit and idempotence -/

/-- Counterexample to C1 as stated: an un-expired cache entry whose
stored CombinedResult is the empty string. `get` returns it, but the
truthiness guard `if cached_result:` rejects it, so the run dispatches
its chunk to the external service (one call, not zero) and returns the
freshly computed analysis instead of the stored result. -/
theorem claim_C1_counterexample :
    lookupStore [(get_cache_key "doc", StoredEntry.valid 0 "")] (get_cache_key "doc") =
      some (StoredEntry.valid 0 "") ∧
    (0 : Int) - 0 ≤ 100 ∧
    (cache_get [(get_cache_key "doc", StoredEntry.valid 0 "")] 100 0 "doc").1 =
      some "" ∧
    (analyze_logs_parallel ⟨true, 100, true⟩ (fun _ => ["doc"])
        (fun _ _ => .ok ("A", 1, 1))
        [(get_cache_key "doc", StoredEntry.valid 0 "")] 0 "doc").serviceCalls = 1 ∧
    (analyze_logs_parallel ⟨true, 100, true⟩ (fun _ => ["doc"])
        (fun _ _ => .ok ("A", 1, 1))
        [(get_cache_key "doc", StoredEntry.valid 0 "")] 0 "doc").output = "A" := by
  have hget : cache_get [(get_cache_key "doc", StoredEntry.valid 0 "")] 100 0 "doc" =
      (some "", [(get_cache_key "doc", StoredEntry.valid 0 "")]) := by
    simp [cache_get, lookupStore, cache_get_body]
  have hrun : analyze_logs_parallel ⟨true, 100, true⟩ (fun _ => ["doc"])
      (fun _ _ => .ok ("A", 1, 1))
      [(get_cache_key "doc", StoredEntry.valid 0 "")] 0 "doc" =
      processDocument ⟨true, 100, true⟩ (fun _ _ => .ok ("A", 1, 1))
        [(get_cache_key "doc", StoredEntry.valid 0 "")] 0 "doc" ["doc"] := by
    simp [analyze_logs_parallel, hget]
  refine ⟨by simp [lookupStore], by norm_num, by rw [hget], ?_, ?_⟩ <;>
    rw [hrun] <;> rfl

/-- C1 (amended): with caching enabled, if the cache holds a stored
**non-empty** CombinedResult for the document (an un-expired entry for
its fingerprint), `analyze_logs_parallel` returns that stored result
immediately — no chunks are dispatched, the external service is not
invoked, and no usage is recorded. Consequently a second orchestration
of an identical document within the TTL **whose first result was
non-empty** invokes the external service zero times and returns the
same CombinedResult as the first. (The amendment — the two non-empty
provisos — is forced by `claim_C1_counterexample`: the guard
`if cached_result:` treats a stored empty string as a miss.) -/
theorem claim_C1_amended :
    ∀ (cfg : AnalyzerConfig) (split : String → List String)
      (oracle : Nat → String → Except String (String × Nat × Nat))
      (store : CacheStore) (now : Int) (doc : String),
      (∀ (c : String) (store1 : CacheStore),
        cfg.enable_cache = true →
        cache_get store cfg.ttl now doc = (some c, store1) →
        c ≠ "" →
        analyze_logs_parallel cfg split oracle store now doc =
          { output := c, serviceCalls := 0, usage := [], store := store1 }) ∧
      (cfg.enable_cache = true →
        cfg.writeOk = true →
        (cache_get store cfg.ttl now doc).1 = none →
        ∀ now2 : Int, now2 - now ≤ cfg.ttl →
          (analyze_logs_parallel cfg split oracle store now doc).output ≠ "" →
          (analyze_logs_parallel cfg split oracle
              (analyze_logs_parallel cfg split oracle store now doc).store now2
              doc).output =
            (analyze_logs_parallel cfg split oracle store now doc).output ∧
          (analyze_logs_parallel cfg split oracle
              (analyze_logs_parallel cfg split oracle store now doc).store now2
              doc).serviceCalls = 0 ∧
          (analyze_logs_parallel cfg split oracle
              (analyze_logs_parallel cfg split oracle store now doc).store now2
              doc).usage = []) := by
  intro cfg split oracle store now doc
  constructor
  · intro c store1 hc hcg hne
    simp [analyze_logs_parallel, hc, hcg, hne]
  · intro hc hw hmiss now2 httl hne
    rcases hp : cache_get store cfg.ttl now doc with ⟨r, st1⟩
    rw [hp] at hmiss
    simp only at hmiss
    subst hmiss
    set r1 := analyze_logs_parallel cfg split oracle store now doc with hr1eq
    have hr1 : r1 = processDocument cfg oracle st1 now doc (split doc) := by
      rw [hr1eq]
      simp [analyze_logs_parallel, hc, hp]
    by_cases hemp : (split doc).isEmpty
    · have hmiss2 : (cache_get st1 cfg.ttl now2 doc).1 = none := by
        have h2 := cache_get_none_again store cfg.ttl now now2 doc (by rw [hp])
        rwa [hp] at h2
      rcases hp2 : cache_get st1 cfg.ttl now2 doc with ⟨r2, st2⟩
      rw [hp2] at hmiss2
      simp only at hmiss2
      subst hmiss2
      have hst1 : r1.store = st1 := by
        rw [hr1]; simp [processDocument, hemp]
      rw [hst1, hr1]
      simp [analyze_logs_parallel, hc, hp2, processDocument_output,
        processDocument_serviceCalls, processDocument_usage, hemp,
        List.isEmpty_iff.mp hemp]
    · have hfinal : r1.output = combineResults (gatheredOutcomes oracle (split doc)) := by
        rw [hr1, processDocument_output, if_neg hemp]
      have hstore : r1.store =
          insertStore st1 (get_cache_key doc)
            (.valid now (combineResults (gatheredOutcomes oracle (split doc)))) := by
        rw [hr1]
        simp [processDocument, hemp, hc, hw, cache_set_true]
      have hget2 : cache_get r1.store cfg.ttl now2 doc =
          (some (combineResults (gatheredOutcomes oracle (split doc))), r1.store) := by
        rw [hstore]
        simp [cache_get, lookupStore_insertStore, cache_get_body,
          show ¬now2 - now > cfg.ttl by omega]
      have hne2 : combineResults (gatheredOutcomes oracle (split doc)) ≠ "" := by
        rw [hfinal] at hne; exact hne
      refine ⟨?_, ?_, ?_⟩ <;>
        simp [analyze_logs_parallel, hc, hget2, hne2, hfinal]

/-- Witness for C1 (amended): a concrete hit on a stored `"R"` is
returned with zero dispatches and zero usage; and a concrete
first-run/second-run pair on an empty store — the second run returns
the first run's output with zero service calls. -/
theorem claim_C1_witness :
    (analyze_logs_parallel ⟨true, 10, true⟩ (fun _ => ["w"])
        (fun _ _ => .ok ("R", 1, 1))
        [(get_cache_key "w", StoredEntry.valid 0 "R")] 0 "w" =
      { output := "R", serviceCalls := 0, usage := [],
        store := [(get_cache_key "w", StoredEntry.valid 0 "R")] }) ∧
    ((analyze_logs_parallel ⟨true, 10, true⟩ (fun _ => ["w"])
        (fun _ _ => .ok ("R", 1, 1))
        (analyze_logs_parallel ⟨true, 10, true⟩ (fun _ => ["w"])
          (fun _ _ => .ok ("R", 1, 1)) [] 0 "w").store 5 "w").output =
      (analyze_logs_parallel ⟨true, 10, true⟩ (fun _ => ["w"])
        (fun _ _ => .ok ("R", 1, 1)) [] 0 "w").output ∧
     (analyze_logs_parallel ⟨true, 10, true⟩ (fun _ => ["w"])
        (fun _ _ => .ok ("R", 1, 1))
        (analyze_logs_parallel ⟨true, 10, true⟩ (fun _ => ["w"])
          (fun _ _ => .ok ("R", 1, 1)) [] 0 "w").store 5 "w").serviceCalls = 0) := by
  constructor
  · exact (claim_C1_amended ⟨true, 10, true⟩ (fun _ => ["w"])
      (fun _ _ => .ok ("R", 1, 1)) [(get_cache_key "w", StoredEntry.valid 0 "R")] 0
      "w").1 "R" [(get_cache_key "w", StoredEntry.valid 0 "R")] rfl
      (by simp [cache_get, lookupStore, cache_get_body]) (by decide)
  · have hx : (analyze_logs_parallel ⟨true, 10, true⟩ (fun _ => ["w"])
        (fun _ _ => .ok ("R", 1, 1)) [] 0 "w").output = "R" := by
      have h0 : analyze_logs_parallel ⟨true, 10, true⟩ (fun _ => ["w"])
          (fun _ _ => .ok ("R", 1, 1)) [] 0 "w" =
          processDocument ⟨true, 10, true⟩ (fun _ _ => .ok ("R", 1, 1)) [] 0 "w"
            ["w"] := by
        simp [analyze_logs_parallel, cache_get, lookupStore]
      rw [h0]
      rfl
    have h := (claim_C1_amended ⟨true, 10, true⟩ (fun _ => ["w"])
      (fun _ _ => .ok ("R", 1, 1)) [] 0 "w").2 rfl rfl
      (by simp [cache_get, lookupStore]) 5 (by norm_num)
      (by rw [hx]; decide)
    exact ⟨h.1, h.2.1⟩

/-! ## Claim C2 — per-chunk reassembly and failure isolation -/

/-- C2: for a document split into `n` chunks (cache disabled or
missed), `analyze_logs_parallel` returns exactly `n` rendered
segments joined by the fixed `"\n\n"` separator, in original chunk
index order; a chunk whose processing fails is rendered as the
bracketed placeholder naming its 1-based chunk number and the error
description, and its failure does not affect any sibling segment —
the run always completes with a total result. -/
theorem claim_C2 :
    ∀ (cfg : AnalyzerConfig) (split : String → List String)
      (oracle : Nat → String → Except String (String × Nat × Nat))
      (store : CacheStore) (now : Int) (doc : String),
      cfg.enable_cache = false →
      split doc ≠ [] →
      (analyze_logs_parallel cfg split oracle store now doc).output =
        String.intercalate "\n\n"
          ((List.range (split doc).length).map fun i =>
            match oracle i ((split doc).getD i "") with
            | .ok (analysis, _, _) => analysis
            | .error e =>
                "[Error analyzing chunk " ++ toString (i + 1) ++ ": " ++
                  ("Failed to analyze log chunk: " ++ e) ++ "]") ∧
      ((List.range (split doc).length).map fun i =>
        match oracle i ((split doc).getD i "") with
        | .ok (analysis, _, _) => analysis
        | .error e =>
            "[Error analyzing chunk " ++ toString (i + 1) ++ ": " ++
              ("Failed to analyze log chunk: " ++ e) ++ "]").length =
        (split doc).length := by
  intro cfg split oracle store now doc hc hne
  have hemp : ¬(split doc).isEmpty := by simpa [List.isEmpty_iff] using hne
  refine ⟨?_, by simp⟩
  have h1 : analyze_logs_parallel cfg split oracle store now doc =
      processDocument cfg oracle store now doc (split doc) := by
    simp [analyze_logs_parallel, hc]
  rw [h1, processDocument_output, if_neg hemp]
  unfold combineResults
  have hlen : (gatheredOutcomes oracle (split doc)).length = (split doc).length := by
    simp [gatheredOutcomes]
  rw [hlen]
  congr 1
  apply List.map_congr_left
  intro i hi
  rw [List.mem_range] at hi
  have hgetD : (gatheredOutcomes oracle (split doc)).getD i (.error "") =
      taskOutcome oracle (split doc) i := by
    simp [gatheredOutcomes, List.getD_eq_getElem?_getD, List.getElem?_map,
      List.getElem?_range, hi]
  rw [hgetD]
  rcases h : oracle i ((split doc).getD i "") with e | ⟨a, tin, tout⟩
  · simp only [List.getD_eq_getElem?_getD] at h
    simp [renderSegment, taskOutcome, analyze_chunk, h]
  · simp only [List.getD_eq_getElem?_getD] at h
    simp [renderSegment, taskOutcome, analyze_chunk, h]

/-- Witness for C2: chunk 2 of 5 fails while the others succeed — the
result has five segments in order, segment 2 being the bracketed
placeholder, and the run completes. -/
theorem claim_C2_witness :
    (analyze_logs_parallel ⟨false, 0, true⟩ (fun _ => ["c1", "c2", "c3", "c4", "c5"])
        (fun i _ => if i = 1 then .error "boom" else .ok ("S" ++ toString (i + 1), 0, 0))
        [] 0 "doc").output =
      "S1\n\n[Error analyzing chunk 2: Failed to analyze log chunk: boom]" ++
        "\n\nS3\n\nS4\n\nS5" := by
  have h := (claim_C2 ⟨false, 0, true⟩ (fun _ => ["c1", "c2", "c3", "c4", "c5"])
    (fun i _ => if i = 1 then .error "boom" else .ok ("S" ++ toString (i + 1), 0, 0))
    [] 0 "doc" rfl (by decide)).1
  rw [h]
  rfl

/-! ## Claim C7 — fingerprint whitespace-invariance and collisions -/

theorem flatten_map_byteToHex_length (bs : List Nat) :
    ((bs.map byteToHex).flatten).length = 2 * bs.length := by
  induction bs with
  | nil => simp
  | cons b rest ih =>
      simp [byteToHex] at ih ⊢
      omega

/-- Every SHA-256 hex digest is 64 characters long, whatever the
input: the fingerprint space is finite. -/
theorem sha256hex_length (s : String) : (sha256hex s).length = 64 := by
  have h32 : (digestBytes (sha256Words s)).length = 32 := by
    simp [digestBytes, wordBytes]
  show ((digestBytes (sha256Words s)).map byteToHex).flatten.length = 64
  rw [flatten_map_byteToHex_length, h32]

theorem get_cache_key_length (d : String) : (get_cache_key d).length = 64 :=
  sha256hex_length _

theorem dropWhile_of_forall_false (p : Char → Bool) (l : List Char)
    (h : ∀ c ∈ l, p c = false) : l.dropWhile p = l := by
  cases l with
  | nil => rfl
  | cons x xs => simp [List.dropWhile_cons, h x (by simp)]

theorem stripChars_of_forall_false (l : List Char)
    (h : ∀ c ∈ l, isStripSpace c = false) : stripChars l = l := by
  unfold stripChars
  rw [dropWhile_of_forall_false _ _ h,
    dropWhile_of_forall_false _ _ (by intro c hc; exact h c (List.mem_reverse.mp hc)),
    List.reverse_reverse]

theorem splitLines_of_no_newline (l : List Char) (h : Char.ofNat 10 ∉ l) :
    splitLines l = [l] := by
  induction l with
  | nil => rfl
  | cons c cs ih =>
      have hc : ¬c = Char.ofNat 10 := fun hh => h (by simp [hh])
      have hcs : Char.ofNat 10 ∉ cs := fun hh => h (by simp [hh])
      simp [splitLines, show ¬c = '\n' from hc, ih hcs]

/-- Normalization fixes every all-`'a'` document: these documents are
pairwise distinct after normalization. -/
theorem normalizeContent_allA (n : Nat) : normalizeContent (allA n) = allA n := by
  have hmem : ∀ c ∈ List.replicate n 'a', isStripSpace c = false := by
    intro c hc
    rw [List.eq_of_mem_replicate hc]
    rfl
  have hnl : Char.ofNat 10 ∉ List.replicate n 'a' := by
    intro h
    have h2 := List.eq_of_mem_replicate h
    simp at h2
  unfold normalizeContent allA
  rw [show (String.mk (List.replicate n 'a')).data = List.replicate n 'a' from rfl]
  rw [stripChars_of_forall_false _ hmem, splitLines_of_no_newline _ hnl]
  simp [stripChars_of_forall_false _ hmem, List.intercalate]

theorem allA_injective : Function.Injective allA := by
  intro a b h
  have h2 := congrArg (fun s => s.data.length) h
  simpa [allA] using h2

/-- Counterexample to the second half of C7 as stated ("any two
documents with distinct normalized content receive distinct
fingerprints"): the fingerprint is a 64-hex-character SHA-256 digest,
so the fingerprint space is finite while normalization-distinct
documents are unlimited — by counting, two documents with distinct
normalized content share a fingerprint. (No such pair is feasibly
computable — that is precisely the collision resistance the spec
appeals to — but the universally quantified claim is false of the
function itself.) -/
theorem claim_C7_counterexample :
    ∃ d1 d2 : String,
      normalizeContent d1 ≠ normalizeContent d2 ∧
      get_cache_key d1 = get_cache_key d2 := by
  have hmem : ∀ n : ℕ, get_cache_key (allA n) ∈ {s : String | s.length = 64} :=
    fun n => get_cache_key_length _
  have hfin : ({s : String | s.length = 64} : Set String).Finite := by
    have hsub : {s : String | s.length = 64} =
        Set.preimage String.data {l : List Char | l.length = 64} := rfl
    rw [hsub]
    exact Set.Finite.preimage (fun a _ b _ hab => String.ext hab)
      (List.finite_length_eq Char 64)
  obtain ⟨a, b, hab, heq⟩ := Set.Finite.exists_lt_map_eq_of_forall_mem hmem hfin
  refine ⟨allA a, allA b, ?_, heq⟩
  rw [normalizeContent_allA, normalizeContent_allA]
  intro h
  exact absurd (allA_injective h) (Nat.ne_of_lt hab)

/-- C7 (amended): any two documents that are equal after
normalization (trimming each line, rejoining with newline, trimming
outer whitespace) receive the same fingerprint and share one cache
entry; and fingerprints of two documents coincide exactly when the
SHA-256 digests of their normalized contents coincide — distinct
normalized contents receive distinct fingerprints precisely insofar
as they do not collide under SHA-256, which cannot hold universally
(see the counterexample) though no concrete collision is feasibly
constructible. -/
theorem claim_C7_amended :
    ∀ d1 d2 : String,
      (normalizeContent d1 = normalizeContent d2 →
        get_cache_key d1 = get_cache_key d2) ∧
      (get_cache_key d1 = get_cache_key d2 ↔
        sha256hex (normalizeContent d1) = sha256hex (normalizeContent d2)) := by
  intro d1 d2
  exact ⟨fun h => by unfold get_cache_key; rw [h], Iff.rfl⟩

/-- Witness for C7 (amended): two concrete documents differing only
in leading/trailing whitespace normalize identically and receive the
same fingerprint. -/
theorem claim_C7_witness :
    normalizeContent "  error at line 3 \n  disk full  " =
      normalizeContent "error at line 3\ndisk full" ∧
    get_cache_key "  error at line 3 \n  disk full  " =
      get_cache_key "error at line 3\ndisk full" := by
  have hn : normalizeContent "  error at line 3 \n  disk full  " =
      normalizeContent "error at line 3\ndisk full" := by decide
  exact ⟨hn, (claim_C7_amended "  error at line 3 \n  disk full  "
    "error at line 3\ndisk full").1 hn⟩

/-! ## Claim C8 — usage metering -/

/-- C8: `record_usage` falls back to the `gpt-4o-mini` pricing for an
unknown model identifier instead of failing; under that pricing the
returned cost is `input_tokens * (0.15/1,000,000) + output_tokens *
(0.60/1,000,000)`; each call adds its cost to the day's running total
and increments the day's request count; and two same-day calls
`record_usage("model-x", 1000, 500)` each accrue 0.00045 USD, after
which the daily cost is 0.0009 and the day's request count is 2. -/
theorem claim_C8 :
    (∀ (st : CostState) (i o : Nat) (d m : String),
      lookupPricing PRICING m = none →
        record_usage st m i o d = record_usage st "gpt-4o-mini" i o d) ∧
    (∀ (st : CostState) (i o : Nat) (d : String),
      (record_usage st "model-x" i o d).1 =
        i * ((0.15 : ℚ) / 1000000) + o * ((0.60 : ℚ) / 1000000)) ∧
    (∀ (st : CostState) (m d : String) (i o : Nat),
      get_daily_cost (record_usage st m i o d).2 d =
        get_daily_cost st d + (record_usage st m i o d).1 ∧
      get_daily_usage (record_usage st m i o d).2 d = get_daily_usage st d + 1) ∧
    (∀ d : String,
      (record_usage ⟨[], []⟩ "model-x" 1000 500 d).1 = (0.00045 : ℚ) ∧
      (record_usage (record_usage ⟨[], []⟩ "model-x" 1000 500 d).2
        "model-x" 1000 500 d).1 = (0.00045 : ℚ) ∧
      get_daily_cost (record_usage (record_usage ⟨[], []⟩ "model-x" 1000 500 d).2
        "model-x" 1000 500 d).2 d = (0.0009 : ℚ) ∧
      get_daily_usage (record_usage (record_usage ⟨[], []⟩ "model-x" 1000 500 d).2
        "model-x" 1000 500 d).2 d = 2) := by
  have h1 : lookupPricing PRICING "model-x" = none := by
    simp [lookupPricing, PRICING]
  have hm : lookupPricing PRICING "gpt-4o-mini" =
      some ((0.15 : ℚ) / 1000000, (0.60 : ℚ) / 1000000) := by
    simp [lookupPricing, PRICING]
  refine ⟨?_, ?_, ?_, ?_⟩
  · intro st i o d m h
    simp [record_usage, h, hm]
  · intro st i o d
    simp [record_usage, h1, hm]
  · intro st m d i o
    simp [record_usage, get_daily_cost, get_daily_usage,
      lookupDailyCost_add, lookupDailyUsage_add]
  · intro d
    refine ⟨?_, ?_, ?_, ?_⟩ <;>
      norm_num [record_usage, h1, hm, get_daily_cost, get_daily_usage,
        addDailyCost, addDailyUsage, lookupDailyCost, lookupDailyUsage]

/-- Witness for C8: the fallback equation applied at the concrete
unknown model `"model-x"`. -/
theorem claim_C8_witness :
    lookupPricing PRICING "model-x" = none ∧
    record_usage ⟨[], []⟩ "model-x" 7 9 "2026-10-12" =
      record_usage ⟨[], []⟩ "gpt-4o-mini" 7 9 "2026-10-12" :=
  ⟨by simp [lookupPricing, PRICING],
   claim_C8.1 ⟨[], []⟩ 7 9 "2026-10-12" "model-x" (by simp [lookupPricing, PRICING])⟩

end RootCauseAI
